import Mathlib

set_option maxHeartbeats 1000000
set_option maxRecDepth 4000

/-!
Shallow embedding of the content-normalization layer and the chat-session
state machine of the generative-ai-python repository
(src/google/generativeai/types/content_types.py and
src/google/generativeai/generative_models.py).

Python exceptions are modelled as an error enumeration, Python dicts as
ordered association lists, proto-plus messages as structures, and the
opaque model-invocation collaborator as a scripted list of responses with
a request log.  The fallible Python functions become functions into
`Except PyError`.
-/

deriving instance DecidableEq for Except

namespace GenAI

/-- Python exception classes that the embedded source distinguishes. -/
inductive PyError where
  | typeError
  | keyError
  | valueError
  | indexError
  | notImplementedError
  | assertionError
  /-- generation_types.BlockedPromptException -/
  | blockedPrompt
  /-- generation_types.StopCandidateException -/
  | stopCandidate
  /-- generation_types.BrokenResponseError -/
  | brokenResponse
  /-- the mock model collaborator ran out of scripted responses -/
  | scriptEnd
  /-- recursion fuel exhausted; unreachable because every wrapper passes
      fuel strictly larger than the size of the value being converted -/
  | fuelOut
deriving DecidableEq

/-- JSON-like values: the payload type for proto Struct fields (function-call
    arguments, function responses) and for generated schemas. -/
inductive JVal where
  | null
  | bool (b : Bool)
  | int (n : Int)
  | str (s : String)
  | list (l : List JVal)
  | obj (fields : List (String × JVal))

mutual

/-- Boolean equality on JSON values. -/
def JVal.beq : JVal → JVal → Bool
  | .null, .null => true
  | .bool a, .bool b => a == b
  | .int a, .int b => a == b
  | .str a, .str b => a == b
  | .list a, .list b => JVal.beqList a b
  | .obj a, .obj b => JVal.beqFields a b
  | _, _ => false

def JVal.beqList : List JVal → List JVal → Bool
  | [], [] => true
  | x :: xs, y :: ys => JVal.beq x y && JVal.beqList xs ys
  | _, _ => false

def JVal.beqFields : List (String × JVal) → List (String × JVal) → Bool
  | [], [] => true
  | (k, v) :: xs, (k2, v2) :: ys => k == k2 && JVal.beq v v2 && JVal.beqFields xs ys
  | _, _ => false

end

mutual

def JVal.beq_iff : (a b : JVal) → (JVal.beq a b = true ↔ a = b)
  | .null, b => by cases b <;> simp [JVal.beq]
  | .bool x, b => by cases b <;> simp [JVal.beq]
  | .int x, b => by cases b <;> simp [JVal.beq]
  | .str x, b => by cases b <;> simp [JVal.beq]
  | .list l, b => by
    cases b <;> simp [JVal.beq]
    case list l2 => exact JVal.beqList_iff l l2
  | .obj f, b => by
    cases b <;> simp [JVal.beq]
    case obj f2 => exact JVal.beqFields_iff f f2

def JVal.beqList_iff : (a b : List JVal) → (JVal.beqList a b = true ↔ a = b)
  | [], b => by cases b <;> simp [JVal.beqList]
  | _ :: _, [] => by simp [JVal.beqList]
  | x :: xs, y :: ys => by
    simp [JVal.beqList, JVal.beq_iff x y, JVal.beqList_iff xs ys]

def JVal.beqFields_iff : (a b : List (String × JVal)) → (JVal.beqFields a b = true ↔ a = b)
  | [], b => by cases b <;> simp [JVal.beqFields]
  | _ :: _, [] => by simp [JVal.beqFields]
  | (k, v) :: xs, (k2, v2) :: ys => by
    simp [JVal.beqFields, JVal.beq_iff v v2, JVal.beqFields_iff xs ys, and_assoc]

end

instance : DecidableEq JVal := fun a b => decidable_of_iff _ (JVal.beq_iff a b)

/-- glm.Blob: inline binary payload plus MIME type. -/
structure Blob where
  mimeType : String
  data : List Nat
deriving DecidableEq

/-- glm.FileData: a by-reference pointer to uploaded content. -/
structure FileData where
  mimeType : String
  fileUri : String
deriving DecidableEq

/-- file_types.File collaborator object; the core only reads mime_type/uri. -/
structure FileObj where
  mimeType : String
  uri : String
deriving DecidableEq

/-- glm.FunctionCall: a function name plus a Struct of named arguments. -/
structure FunctionCall where
  name : String
  args : List (String × JVal)
deriving DecidableEq

/-- glm.FunctionResponse: a function name plus a Struct response. -/
structure FunctionResponse where
  name : String
  response : List (String × JVal)
deriving DecidableEq

/-- glm.Part: a tagged union with exactly one populated variant. -/
inductive Part where
  | text (s : String)
  | inlineData (b : Blob)
  | fileData (fd : FileData)
  | functionCall (fc : FunctionCall)
  | functionResponse (fr : FunctionResponse)
deriving DecidableEq

/-- glm.Content: one conversation turn. -/
structure Content where
  role : String
  parts : List Part
deriving DecidableEq

/-- The universe of Python values the coercion entry points receive:
    canonical messages, strings, bytes, JSON scalars, lists, and dicts. -/
inductive PyVal where
  | none
  | bool (b : Bool)
  | int (n : Int)
  | str (s : String)
  | bytes (b : List Nat)
  | blob (b : Blob)
  | fileData (fd : FileData)
  | file (f : FileObj)
  | functionCall (fc : FunctionCall)
  | functionResponse (fr : FunctionResponse)
  | part (p : Part)
  | content (c : Content)
  | list (l : List PyVal)
  | dict (fields : List (String × PyVal))

mutual

/-- Boolean equality on embedded Python values. -/
def PyVal.beq : PyVal → PyVal → Bool
  | .none, .none => true
  | .bool a, .bool b => a == b
  | .int a, .int b => a == b
  | .str a, .str b => a == b
  | .bytes a, .bytes b => a == b
  | .blob a, .blob b => a == b
  | .fileData a, .fileData b => a == b
  | .file a, .file b => a == b
  | .functionCall a, .functionCall b => a == b
  | .functionResponse a, .functionResponse b => a == b
  | .part a, .part b => a == b
  | .content a, .content b => a == b
  | .list a, .list b => PyVal.beqList a b
  | .dict a, .dict b => PyVal.beqFields a b
  | _, _ => false

def PyVal.beqList : List PyVal → List PyVal → Bool
  | [], [] => true
  | x :: xs, y :: ys => PyVal.beq x y && PyVal.beqList xs ys
  | _, _ => false

def PyVal.beqFields : List (String × PyVal) → List (String × PyVal) → Bool
  | [], [] => true
  | (k, v) :: xs, (k2, v2) :: ys => k == k2 && PyVal.beq v v2 && PyVal.beqFields xs ys
  | _, _ => false

end

mutual

def PyVal.beq_iff : (a b : PyVal) → (PyVal.beq a b = true ↔ a = b)
  | .none, b => by cases b <;> simp [PyVal.beq]
  | .bool x, b => by cases b <;> simp [PyVal.beq]
  | .int x, b => by cases b <;> simp [PyVal.beq]
  | .str x, b => by cases b <;> simp [PyVal.beq]
  | .bytes x, b => by cases b <;> simp [PyVal.beq]
  | .blob x, b => by cases b <;> simp [PyVal.beq]
  | .fileData x, b => by cases b <;> simp [PyVal.beq]
  | .file x, b => by cases b <;> simp [PyVal.beq]
  | .functionCall x, b => by cases b <;> simp [PyVal.beq]
  | .functionResponse x, b => by cases b <;> simp [PyVal.beq]
  | .part x, b => by cases b <;> simp [PyVal.beq]
  | .content x, b => by cases b <;> simp [PyVal.beq]
  | .list l, b => by
    cases b <;> simp [PyVal.beq]
    case list l2 => exact PyVal.beqList_iff l l2
  | .dict f, b => by
    cases b <;> simp [PyVal.beq]
    case dict f2 => exact PyVal.beqFields_iff f f2

def PyVal.beqList_iff : (a b : List PyVal) → (PyVal.beqList a b = true ↔ a = b)
  | [], b => by cases b <;> simp [PyVal.beqList]
  | _ :: _, [] => by simp [PyVal.beqList]
  | x :: xs, y :: ys => by
    simp [PyVal.beqList, PyVal.beq_iff x y, PyVal.beqList_iff xs ys]

def PyVal.beqFields_iff : (a b : List (String × PyVal)) → (PyVal.beqFields a b = true ↔ a = b)
  | [], b => by cases b <;> simp [PyVal.beqFields]
  | _ :: _, [] => by simp [PyVal.beqFields]
  | (k, v) :: xs, (k2, v2) :: ys => by
    simp [PyVal.beqFields, PyVal.beq_iff v v2, PyVal.beqFields_iff xs ys, and_assoc]

end

instance : DecidableEq PyVal := fun a b => decidable_of_iff _ (PyVal.beq_iff a b)

mutual

/-- Node count of a Python value; used to compute recursion fuel. -/
def pySize : PyVal → Nat
  | .list l => pySizeList l + 1
  | .dict fields => pySizeFields fields + 1
  | _ => 1

def pySizeList : List PyVal → Nat
  | [] => 1
  | x :: xs => pySize x + pySizeList xs + 1

def pySizeFields : List (String × PyVal) → Nat
  | [] => 1
  | (_, v) :: rest => pySize v + pySizeFields rest + 1

end

mutual

/-- Conversion of a Python value to a proto Struct value (the coercion the
    proto layer performs for FunctionCall.args / FunctionResponse.response);
    non-JSON values are rejected. -/
def pyToJ : PyVal → Option JVal
  | .none => some .null
  | .bool b => some (.bool b)
  | .int n => some (.int n)
  | .str s => some (.str s)
  | .list l => (pyToJList l).map .list
  | .dict fields => (pyToJFields fields).map .obj
  | _ => Option.none

def pyToJList : List PyVal → Option (List JVal)
  | [] => some []
  | x :: xs =>
    match pyToJ x, pyToJList xs with
    | some j, some js => some (j :: js)
    | _, _ => Option.none

def pyToJFields : List (String × PyVal) → Option (List (String × JVal))
  | [] => some []
  | (k, v) :: rest =>
    match pyToJ v, pyToJFields rest with
    | some j, some js => some ((k, j) :: js)
    | _, _ => Option.none

end

/-- Python `key in dict`. -/
def hasKey (fields : List (String × PyVal)) (k : String) : Bool :=
  (List.lookup k fields).isSome

/-- is_content_dict: a dict is a content dict iff it has a "parts" key. -/
def is_content_dict (fields : List (String × PyVal)) : Bool :=
  hasKey fields "parts"

/-- is_part_dict: exactly one key, drawn from the five part field names. -/
def is_part_dict (fields : List (String × PyVal)) : Bool :=
  match fields with
  | [(k, _)] =>
    k == "text" || k == "inline_data" || k == "function_call" ||
    k == "function_response" || k == "file_data"
  | _ => false

/-- is_blob_dict: has both "mime_type" and "data" keys. -/
def is_blob_dict (fields : List (String × PyVal)) : Bool :=
  hasKey fields "mime_type" && hasKey fields "data"

/-- to_file_data: accepts FileData, a File object, a dict with "file_uri"
    (a glm.FileData mapping) or a dict without it (a glm.File mapping). -/
def to_file_data : PyVal → Except PyError FileData
  | .fileData fd => .ok fd
  | .file f => .ok ⟨f.mimeType, f.uri⟩
  | .dict fields =>
    if hasKey fields "file_uri" then
      if fields.all fun kv => kv.1 == "mime_type" || kv.1 == "file_uri" then
        match List.lookup "mime_type" fields, List.lookup "file_uri" fields with
        | some (.str m), some (.str u) => .ok ⟨m, u⟩
        | Option.none, some (.str u) => .ok ⟨"", u⟩
        | _, _ => .error .typeError
      else .error .valueError
    else
      if fields.all fun kv => kv.1 == "mime_type" || kv.1 == "uri" then
        match List.lookup "mime_type" fields, List.lookup "uri" fields with
        | some (.str m), some (.str u) => .ok ⟨m, u⟩
        | Option.none, some (.str u) => .ok ⟨"", u⟩
        | some (.str m), Option.none => .ok ⟨m, ""⟩
        | Option.none, Option.none => .ok ⟨"", ""⟩
        | _, _ => .error .typeError
      else .error .valueError
  | _ => .error .typeError

/-- Reads a Struct-valued dict entry (proto coercion), defaulting to empty. -/
def structArg (fields : List (String × PyVal)) (k : String) :
    Except PyError (List (String × JVal)) :=
  match List.lookup k fields with
  | Option.none => .ok []
  | some av =>
    match pyToJ av with
    | some (.obj o) => .ok o
    | _ => .error .typeError

/-- Reads a string-valued dict entry (proto coercion), defaulting to "". -/
def strArg (fields : List (String × PyVal)) (k : String) : Except PyError String :=
  match List.lookup k fields with
  | Option.none => .ok ""
  | some (.str s) => .ok s
  | some _ => .error .typeError

/-- Coercion of a "function_call" part-dict value by the proto constructor. -/
def functionCall_from_val : PyVal → Except PyError FunctionCall
  | .functionCall fc => .ok fc
  | .dict fields =>
    if fields.all fun kv => kv.1 == "name" || kv.1 == "args" then
      match strArg fields "name", structArg fields "args" with
      | .ok n, .ok a => .ok ⟨n, a⟩
      | .error e, _ => .error e
      | _, .error e => .error e
    else .error .valueError
  | _ => .error .typeError

/-- Coercion of a "function_response" part-dict value by the proto constructor. -/
def functionResponse_from_val : PyVal → Except PyError FunctionResponse
  | .functionResponse fr => .ok fr
  | .dict fields =>
    if fields.all fun kv => kv.1 == "name" || kv.1 == "response" then
      match strArg fields "name", structArg fields "response" with
      | .ok n, .ok r => .ok ⟨n, r⟩
      | .error e, _ => .error e
      | _, .error e => .error e
    else .error .valueError
  | _ => .error .typeError

/-- glm.Blob(dict): only mime_type/data keys, with a string and bytes value. -/
def blob_from_dict (fields : List (String × PyVal)) : Except PyError Blob :=
  if fields.all fun kv => kv.1 == "mime_type" || kv.1 == "data" then
    match List.lookup "mime_type" fields, List.lookup "data" fields with
    | some (.str m), some (.bytes b) => .ok ⟨m, b⟩
    | _, _ => .error .typeError
  else .error .valueError

/-- glm.Content(dict): only parts/role keys; the parts are supplied already
    coerced; the role must be a string and defaults to "". -/
def content_from_dict (fields : List (String × PyVal)) (parts : List Part) :
    Except PyError Content :=
  if fields.all fun kv => kv.1 == "parts" || kv.1 == "role" then
    match List.lookup "role" fields with
    | Option.none => .ok ⟨"", parts⟩
    | some (.str r) => .ok ⟨r, parts⟩
    | some _ => .error .typeError
  else .error .valueError

/-- Result of _convert_dict: a Content, a Part, or a Blob. -/
inductive DictConv where
  | content (c : Content)
  | part (p : Part)
  | blob (b : Blob)
deriving DecidableEq

/-- The tail of _convert_dict once the content-dict test has failed: the
    blob-dict test, else the KeyError for an unrecognized dict shape. -/
def blob_or_key (fields : List (String × PyVal)) : Except PyError DictConv :=
  if is_blob_dict fields then
    match blob_from_dict fields with
    | .error e => .error e
    | .ok b => .ok (.blob b)
  else .error .keyError

/-- to_blob on a value that is not a Mapping (the branches after the
    dict-conversion step): a Blob passes through, anything else raises
    TypeError.  The image types are outside the embedded universe. -/
def to_blob_nond : PyVal → Except PyError Blob
  | .blob b => .ok b
  | _ => .error .typeError

/-- to_part on a value that is not a Mapping.  The source tests, in order:
    glm.Part, str, glm.FileData, File, glm.FunctionCall — and then repeats
    the glm.FunctionCall test where glm.FunctionResponse was intended, so a
    FunctionResponse is never matched and falls to the inline-data fallback,
    where to_blob raises TypeError. -/
def to_part_nond : PyVal → Except PyError Part
  | .part pt => .ok pt
  | .str s => .ok (.text s)
  | .fileData fd => .ok (.fileData fd)
  | .file f => .ok (.fileData ⟨f.mimeType, f.uri⟩)
  | .functionCall fc => .ok (.functionCall fc)
  | .blob b => .ok (.inlineData b)
  | _ => .error .typeError

/-- to_part applied to the result of _convert_dict: a Part passes through; a
    Content matches none of the isinstance tests and falls to the
    inline-data fallback where to_blob raises TypeError; a Blob falls to the
    same fallback where to_blob succeeds. -/
def to_part_conv : DictConv → Except PyError Part
  | .part pt => .ok pt
  | .blob b => .ok (.inlineData b)
  | .content _ => .error .typeError

mutual

/-- _convert_dict, with fuel for the nested-dict recursion.  Dispatch order:
    content dict, then part dict, then blob dict, else KeyError. -/
def convert_dict_f : Nat → List (String × PyVal) → Except PyError DictConv
  | 0, _ => .error .fuelOut
  | fuel+1, fields =>
    match List.lookup "parts" fields with
    | some pv =>
      match
        (match pv with
         | .str s => parts_list_f fuel [PyVal.str s]
         | .list l => parts_list_f fuel l
         | _ => .error .typeError) with
      | .error e => .error e
      | .ok parts =>
        match content_from_dict fields parts with
        | .error e => .error e
        | .ok c => .ok (.content c)
    | Option.none => convert_nonparts fuel fields

/-- The part-dict and blob-dict branches of _convert_dict, reached when the
    content-dict test ("parts" in dict) has failed. -/
def convert_nonparts : Nat → List (String × PyVal) → Except PyError DictConv
  | 0, _ => .error .fuelOut
  | fuel+1, fields =>
  match fields with
  | [(k, v)] =>
    if k == "text" then
      match v with
      | .str s => .ok (.part (.text s))
      | _ => .error .typeError
    else if k == "inline_data" then
      match to_blob_f fuel v with
      | .error e => .error e
      | .ok b => .ok (.part (.inlineData b))
    else if k == "file_data" then
      match to_file_data v with
      | .error e => .error e
      | .ok fd => .ok (.part (.fileData fd))
    else if k == "function_call" then
      match functionCall_from_val v with
      | .error e => .error e
      | .ok fc => .ok (.part (.functionCall fc))
    else if k == "function_response" then
      match functionResponse_from_val v with
      | .error e => .error e
      | .ok fr => .ok (.part (.functionResponse fr))
    else blob_or_key [(k, v)]
  | other => blob_or_key other

/-- to_part with fuel: a Mapping goes through _convert_dict first. -/
def to_part_f : Nat → PyVal → Except PyError Part
  | 0, _ => .error .fuelOut
  | fuel+1, p =>
    match p with
    | .dict fields =>
      match convert_dict_f fuel fields with
      | .error e => .error e
      | .ok cv => to_part_conv cv
    | _ => to_part_nond p

/-- to_blob with fuel: a Mapping goes through _convert_dict first; only a
    Blob result is accepted. -/
def to_blob_f : Nat → PyVal → Except PyError Blob
  | 0, _ => .error .fuelOut
  | fuel+1, p =>
    match p with
    | .dict fields =>
      match convert_dict_f fuel fields with
      | .error e => .error e
      | .ok cv =>
        match cv with
        | .blob b => .ok b
        | _ => .error .typeError
    | _ => to_blob_nond p

/-- The per-element to_part mapping inside a content dict. -/
def parts_list_f : Nat → List PyVal → Except PyError (List Part)
  | 0, _ => .error .fuelOut
  | _+1, [] => .ok []
  | fuel+1, x :: xs =>
    match to_part_f fuel x with
    | .error e => .error e
    | .ok pt =>
      match parts_list_f fuel xs with
      | .error e => .error e
      | .ok pts => .ok (pt :: pts)

end

/-- to_part: the Part coercer.  Fuel strictly exceeds the size of the value,
    so the fuel-out branch is unreachable. -/
def to_part (p : PyVal) : Except PyError Part :=
  to_part_f (pySize p + 1) p

/-- to_blob: the Blob coercer. -/
def to_blob (p : PyVal) : Except PyError Blob :=
  to_blob_f (pySize p + 1) p

/-- _convert_dict at the top level. -/
def convert_dict (fields : List (String × PyVal)) : Except PyError DictConv :=
  convert_dict_f (pySizeFields fields + 1) fields

/-- Python truthiness for the embedded universe.  proto-plus messages do not
    define a boolean conversion, so they are always truthy. -/
def pyFalsy : PyVal → Bool
  | .none => true
  | .bool b => !b
  | .int n => n == 0
  | .str s => s.isEmpty
  | .bytes b => b.isEmpty
  | .list l => l.isEmpty
  | .dict fields => fields.isEmpty
  | _ => false

/-- The per-element to_part mapping for an iterable given to to_content. -/
def parts_map : List PyVal → Except PyError (List Part)
  | [] => .ok []
  | x :: xs =>
    match to_part x with
    | .error e => .error e
    | .ok pt =>
      match parts_map xs with
      | .error e => .error e
      | .ok ps => .ok (pt :: ps)

/-- to_content: the Content coercer.  Empty input is rejected; a dict goes
    through _convert_dict; a Content passes through; a non-string iterable
    is the parts of one message; any other value is a single part. -/
def to_content (content : PyVal) : Except PyError Content :=
  if pyFalsy content then .error .valueError
  else
    match content with
    | .dict fields =>
      match convert_dict fields with
      | .error e => .error e
      | .ok (.content c) => .ok c
      | .ok (.part pt) => .ok ⟨"", [pt]⟩
      | .ok (.blob b) => .ok ⟨"", [.inlineData b]⟩
    | .content c => .ok c
    | .list l =>
      match parts_map l with
      | .error e => .error e
      | .ok ps => .ok ⟨"", ps⟩
    | other =>
      match to_part other with
      | .error e => .error e
      | .ok pt => .ok ⟨"", [pt]⟩

/-- strict_to_content: only a canonical Content, or a dict that _convert_dict
    turns into one, qualifies; everything else raises TypeError. -/
def strict_to_content : PyVal → Except PyError Content
  | .dict fields =>
    match convert_dict fields with
    | .error e => .error e
    | .ok (.content c) => .ok c
    | .ok _ => .error .typeError
  | .content c => .ok c
  | _ => .error .typeError

/-- The per-element strict conversion attempted by to_contents. -/
def strict_list : List PyVal → Except PyError (List Content)
  | [] => .ok []
  | x :: xs =>
    match strict_to_content x with
    | .error e => .error e
    | .ok c =>
      match strict_list xs with
      | .error e => .error e
      | .ok cs => .ok (c :: cs)

/-- to_contents: the Contents coercer.  For a non-string, non-dict iterable
    the per-element strict conversion is attempted first; only a TypeError
    from it triggers the single-content fallback through to_content. -/
def to_contents (contents : Option PyVal) : Except PyError (List Content) :=
  match contents with
  | Option.none => .ok []
  | some v =>
    match v with
    | .list l =>
      match strict_list l with
      | .ok cs => .ok cs
      | .error .typeError =>
        match to_content v with
        | .error e => .error e
        | .ok c => .ok [c]
      | .error e => .error e
    | _ =>
      match to_content v with
      | .error e => .error e
      | .ok c => .ok [c]

/-- The strict per-element check exactly as the specification words it: the
    element "is a canonical Content or a dict with a parts key". -/
def claimStrictCheck : PyVal → Bool
  | .content _ => true
  | .dict fields => hasKey fields "parts"
  | _ => false

/-! ### Schema synthesizer (_generate_schema / _rename_schema_fields) -/

/-- The Python type annotations the synthesizer distinguishes: the basic
    scalar annotations, an absent annotation (inspect.Parameter.empty, which
    the source replaces with Any), and Optional wrappers. -/
inductive PyAnn where
  | int
  | str
  | float
  | bool
  | any
  | opt (t : PyAnn)
deriving DecidableEq

/-- inspect.Parameter.kind values. -/
inductive ParamKind where
  | positionalOrKeyword
  | keywordOnly
  | positionalOnly
  | varPositional
  | varKeyword
deriving DecidableEq

/-- One parameter of a Python callable as seen through inspect.signature. -/
structure PyParam where
  name : String
  ann : PyAnn
  hasDefault : Bool
  kind : ParamKind
deriving DecidableEq

/-- A Python callable as seen through reflection: name, docstring, and
    parameter list in declaration order. -/
structure PyFunc where
  name : String
  doc : Option String
  params : List PyParam
deriving DecidableEq

/-- The parameter kinds the synthesizer keeps (no *args / **kwargs). -/
def fixedKind : ParamKind → Bool
  | .positionalOrKeyword => true
  | .keywordOnly => true
  | .positionalOnly => true
  | _ => false

/-- Dict lookup on a JSON object (association list). -/
def jGetKey (fields : List (String × JVal)) (k : String) : Option JVal :=
  List.lookup k fields

/-- Dict assignment: replaces the value in place when the key exists,
    appends otherwise (Python dict semantics). -/
def jSetKey (fields : List (String × JVal)) (k : String) (v : JVal) :
    List (String × JVal) :=
  if (List.lookup k fields).isSome then
    fields.map fun kv => if kv.1 = k then (k, v) else kv
  else fields ++ [(k, v)]

/-- Dict pop: removes the key wherever it occurs. -/
def jPopKey (fields : List (String × JVal)) (k : String) : List (String × JVal) :=
  fields.filter fun kv => kv.1 ≠ k

/-- The "type" fields pydantic generates for an annotation; an Any-annotated
    field gets no type constraint, and Optional[X] renders like X. -/
def pydanticTypeFields : PyAnn → List (String × JVal)
  | .int => [("type", .str "integer")]
  | .str => [("type", .str "string")]
  | .float => [("type", .str "number")]
  | .bool => [("type", .str "boolean")]
  | .any => []
  | .opt t => pydanticTypeFields t

/-- Whether an annotation is Optional (a Union containing NoneType). -/
def isOptionalAnn : PyAnn → Bool
  | .opt _ => true
  | _ => false

/-- One property of the pydantic model schema: a generated title, the
    user-provided description when present, and the inferred type fields. -/
def propertySchema (p : PyParam) (descr : Option String) : JVal :=
  .obj ([("title", .str p.name)]
        ++ (match descr with
            | some d => [("description", .str d)]
            | Option.none => [])
        ++ pydanticTypeFields p.ann)

/-- Applies a function to every property value under the "properties" key
    (the per-property postprocessing loop of _generate_schema). -/
def mapProperties (fields : List (String × JVal)) (g : String → JVal → JVal) :
    List (String × JVal) :=
  fields.map fun kv =>
    if kv.1 = "properties" then
      (kv.1,
       match kv.2 with
       | .obj props => .obj (props.map fun pv => (pv.1, g pv.1 pv.2))
       | v => v)
    else kv

/-- Pops the "title" key of a property value (a dict). -/
def jPopTitle : JVal → JVal
  | .obj fields => .obj (jPopKey fields "title")
  | v => v

/-- Sets the "nullable" key of a property value (a dict). -/
def jSetNullable : JVal → JVal
  | .obj fields => .obj (jSetKey fields "nullable" (.bool true))
  | v => v

/-- str.upper for the ASCII strings appearing in schemas. -/
def upperString (s : String) : String :=
  ⟨s.data.map Char.toUpper⟩

/-- _generate_schema: builds the pydantic model schema for the callable's
    fixed-name parameters, pops the generated titles, marks Optional
    annotations nullable, and sets "required" — verbatim from the caller
    when the supplied list is non-empty (Python truthiness of the argument
    after the None-to-[] normalization), else inferred as the fixed-name
    parameters with no default.  Returns the "parameters" schema; the name
    and docstring wrap around it unchanged. -/
def generate_schema (f : PyFunc) (descriptions : List (String × String))
    (required : Option (List String)) : JVal :=
  let required := required.getD []
  let fields := f.params.filter fun p => fixedKind p.kind
  let props := fields.map fun p => (p.name, propertySchema p (List.lookup p.name descriptions))
  let parameters : List (String × JVal) :=
    [("title", .str f.name), ("type", .str "object"),
     ("properties", .obj props),
     ("required", .list (fields.map fun p => .str p.name))]
  let parameters := jPopKey parameters "title"
  let parameters := mapProperties parameters fun name v =>
    let v := jPopTitle v
    if (f.params.find? fun p => p.name = name).any (fun p => isOptionalAnn p.ann) then
      jSetNullable v
    else v
  let requiredNames :=
    if required.isEmpty then
      (f.params.filter fun p => !p.hasDefault && fixedKind p.kind).map (·.name)
    else required
  .obj (jSetKey parameters "required" (.list (requiredNames.map .str)))

mutual

/-- _rename_schema_fields: rewrites "type"→"type_" (upper-cased value) and
    "format"→"format_", recursing through "items" and the "properties"
    values.  The source pops and re-appends these keys, which only moves
    them to the end of the dict; the key-to-value mapping is as here. -/
def rename_schema_fields : JVal → JVal
  | .obj fields => .obj (renameFields fields)
  | v => v

def renameFields : List (String × JVal) → List (String × JVal)
  | [] => []
  | (k, v) :: rest =>
    (if k = "type" then
       ("type_", match v with | .str s => .str (upperString s) | other => other)
     else if k = "format" then ("format_", v)
     else if k = "items" then ("items", rename_schema_fields v)
     else if k = "properties" then ("properties", renamePropsVal v)
     else (k, v)) :: renameFields rest

def renamePropsVal : JVal → JVal
  | .obj props => .obj (renameProps props)
  | v => v

def renameProps : List (String × JVal) → List (String × JVal)
  | [] => []
  | (k, v) :: rest => (k, rename_schema_fields v) :: renameProps rest

end

/-- The full synthesizer pipeline of FunctionDeclaration.from_function: the
    generated parameters schema with the wire-convention field renaming
    applied by FunctionDeclaration.__init__. -/
def synthesize_schema (f : PyFunc) (descriptions : List (String × String))
    (required : Option (List String)) : JVal :=
  rename_schema_fields (generate_schema f descriptions required)

mutual

/-- No raw "type" or "format" key anywhere in a JSON value. -/
def noTypeFormatKeys : JVal → Bool
  | .obj fields => noTypeFormatFields fields
  | .list l => noTypeFormatList l
  | _ => true

def noTypeFormatFields : List (String × JVal) → Bool
  | [] => true
  | (k, v) :: rest =>
    k != "type" && k != "format" && noTypeFormatKeys v && noTypeFormatFields rest

def noTypeFormatList : List JVal → Bool
  | [] => true
  | x :: xs => noTypeFormatKeys x && noTypeFormatList xs

end

/-- The field list of a JSON object (empty for non-objects). -/
def objFields : JVal → List (String × JVal)
  | .obj fields => fields
  | _ => []

/-- The concrete callable of the specification example:
    f(a: int, b: str = "x"). -/
def exampleFunc : PyFunc :=
  ⟨"f", Option.none,
   [⟨"a", .int, false, .positionalOrKeyword⟩,
    ⟨"b", .str, true, .positionalOrKeyword⟩]⟩

/-! ### Function/Tool registry (FunctionDeclaration, Tool, FunctionLibrary) -/

/-- The proto data of a glm.FunctionDeclaration: what to_proto sends. -/
structure FnDeclProto where
  name : String
  description : String
  parameters : Option JVal
deriving DecidableEq

/-- A FunctionDeclaration: plain (not callable — includes raw
    glm.FunctionDeclaration protos) or a CallableFunctionDeclaration that
    owns a native callable taking the call's named arguments. -/
inductive FnDecl where
  | plain (proto : FnDeclProto)
  | callable (proto : FnDeclProto) (fn : List (String × JVal) → JVal)

/-- The proto of a declaration. -/
def FnDecl.proto : FnDecl → FnDeclProto
  | .plain pr => pr
  | .callable pr _ => pr

/-- The declared function name. -/
def FnDecl.name (d : FnDecl) : String := d.proto.name

/-- Python callable(declaration): only CallableFunctionDeclaration has
    a __call__ method. -/
def FnDecl.isCallable : FnDecl → Bool
  | .plain _ => false
  | .callable _ _ => true

/-- The response-mapping wrap of CallableFunctionDeclaration.__call__: a
    mapping result is used as-is, anything else becomes {"result": value}. -/
def wrapResult : JVal → List (String × JVal)
  | .obj fields => fields
  | other => [("result", other)]

/-- CallableFunctionDeclaration.__call__: invokes the bound callable with
    the call's named arguments and wraps a non-mapping result as
    {"result": value}. -/
def callable_call (fn : List (String × JVal) → JVal) (fc : FunctionCall) :
    FunctionResponse :=
  ⟨fc.name, wrapResult (fn fc.args)⟩

/-- A Tool: an ordered collection of function declarations. -/
structure Tool where
  decls : List FnDecl

/-- Adds one declaration to a name index, failing on a duplicate name
    (the construction-time scan of Tool.__init__ and
    FunctionLibrary.__init__; Python raises ValueError). -/
def addDecl (idx : List (String × FnDecl)) (d : FnDecl) :
    Except PyError (List (String × FnDecl)) :=
  if (List.lookup d.name idx).isSome then .error .valueError
  else .ok (idx ++ [(d.name, d)])

/-- Builds a name index over a declaration list, left to right. -/
def buildIndex : List FnDecl → Except PyError (List (String × FnDecl)) :=
  go []
where
  go (idx : List (String × FnDecl)) : List FnDecl → Except PyError (List (String × FnDecl))
    | [] => .ok idx
    | d :: rest =>
      match addDecl idx d with
      | .error e => .error e
      | .ok idx => go idx rest

/-- Tool construction: validates name uniqueness inside the tool. -/
def Tool.make (decls : List FnDecl) : Except PyError Tool :=
  match buildIndex decls with
  | .error e => .error e
  | .ok _ => .ok ⟨decls⟩

/-- _make_tools on a list of already-constructed tools: more than one
    single-declaration tool is flattened into one multi-declaration tool
    (whose constructor re-checks name uniqueness). -/
def make_tools (ts : List Tool) : Except PyError (List Tool) :=
  if ts.length > 1 && ts.all (fun t => t.decls.length == 1) then
    -- [t.function_declarations[0] for t in tools]; under the all-singleton
    -- guard this is exactly the concatenation of the declaration lists
    match Tool.make (ts.flatMap (·.decls)) with
    | .error e => .error e
    | .ok t => .ok [t]
  else .ok ts

/-- A FunctionLibrary: the tool list plus the global name index. -/
structure FunctionLibrary where
  tools : List Tool
  index : List (String × FnDecl)

/-- FunctionLibrary.__init__: runs _make_tools, then scans every tool's
    declarations into a global index, failing on any duplicate name. -/
def FunctionLibrary.make (ts : List Tool) : Except PyError FunctionLibrary :=
  match make_tools ts with
  | .error e => .error e
  | .ok ts =>
    match buildIndex (ts.flatMap (·.decls)) with
    | .error e => .error e
    | .ok idx => .ok ⟨ts, idx⟩

/-- FunctionLibrary.__getitem__ with a string name: a missing name raises
    KeyError. -/
def FunctionLibrary.getName (lib : FunctionLibrary) (name : String) :
    Except PyError FnDecl :=
  match List.lookup name lib.index with
  | Option.none => .error .keyError
  | some d => .ok d

/-- FunctionLibrary.__getitem__ with a glm.FunctionCall: looks up fc.name. -/
def FunctionLibrary.getFC (lib : FunctionLibrary) (fc : FunctionCall) :
    Except PyError FnDecl :=
  lib.getName fc.name

/-- FunctionLibrary.__call__: resolves the declaration; a non-callable
    declaration yields null (not an error); a callable one is invoked and
    its response wrapped in a functionResponse Part. -/
def FunctionLibrary.callFC (lib : FunctionLibrary) (fc : FunctionCall) :
    Except PyError (Option Part) :=
  match lib.getFC fc with
  | .error e => .error e
  | .ok (.plain _) => .ok Option.none
  | .ok (.callable _ fn) => .ok (some (.functionResponse (callable_call fn fc)))

/-- FunctionLibrary.to_proto: the declaration protos grouped by tool. -/
def FunctionLibrary.toProto (lib : FunctionLibrary) : List (List FnDeclProto) :=
  lib.tools.map fun t => t.decls.map FnDecl.proto

/-- A concrete two-declaration library used to witness invocation: one
    plain declaration named "g" and one callable named "f" returning 7. -/
def invokeWitnessLib : FunctionLibrary :=
  ⟨[⟨[.plain ⟨"g", "", Option.none⟩,
      .callable ⟨"f", "", Option.none⟩ (fun _ => .int 7)]⟩],
   [("g", .plain ⟨"g", "", Option.none⟩),
    ("f", .callable ⟨"f", "", Option.none⟩ (fun _ => .int 7))]⟩

/-! ### Chat session state machine (generative_models.py) -/

/-- glm.Candidate.FinishReason. -/
inductive FinishReason where
  | unspecified
  | stop
  | maxTokens
  | safety
  | recitation
  | other
deriving DecidableEq

/-- One response candidate: its content and finish reason. -/
structure Candidate where
  content : Content
  finishReason : FinishReason
deriving DecidableEq

/-- A GenerateContentResponse as the session observes it: the candidate
    list, whether prompt_feedback.block_reason is set, and the stored
    _error slot. -/
structure Response where
  candidates : List Candidate
  blockReason : Bool
  error : Option PyError
deriving DecidableEq

/-- The finish reasons send_message and the history accessor accept. -/
def normalFinish : FinishReason → Bool
  | .unspecified => true
  | .stop => true
  | .maxTokens => true
  | _ => false

/-- A ChatSession: the committed history plus the two pending slots.
    Every path in the source sets and clears _last_sent and _last_received
    together. -/
structure ChatSession where
  history : List Content
  lastSent : Option Content
  lastReceived : Option Response
deriving DecidableEq

/-- role defaulting for a committed model response. -/
def model_role_default (c : Content) : Content :=
  if c.role = "" then { c with role := "model" } else c

/-- The ChatSession.history getter: with no pending response it returns the
    committed history; otherwise it validates the pending response's first
    candidate (an abnormal finish stores a StopCandidateException on the
    response), raises BrokenResponseError while an error is stored, and on
    a normal finish commits the pending pair (model role defaulted) and
    clears the pending slots. -/
def historyRead (s : ChatSession) : Except PyError (List Content) × ChatSession :=
  match s.lastReceived with
  | Option.none => (.ok s.history, s)
  | some last =>
    match last.candidates with
    | [] => (.error .indexError, s)
    | cand :: _ =>
      let last :=
        if normalFinish cand.finishReason then last
        else { last with error := some .stopCandidate }
      if last.error.isSome then
        (.error .brokenResponse, { s with lastReceived := some last })
      else
        let received := model_role_default cand.content
        let sentPart :=
          match s.lastSent with
          | some sc => [sc]
          | Option.none => []
        let committed := s.history ++ sentPart ++ [received]
        (.ok committed,
         { history := committed, lastSent := Option.none, lastReceived := Option.none })

/-- The ChatSession.history setter: replaces the committed history (the
    to_contents coercion is the identity on a list of canonical Contents,
    proven below) and clears the pending slots. -/
def historySet (s : ChatSession) (h : List Content) : ChatSession :=
  let _ := s
  { history := h, lastSent := Option.none, lastReceived := Option.none }

/-- ChatSession.rewind: with no pending response, pops the last two
    committed entries (IndexError on underflow, with no mutation, because
    pop(-2) is evaluated first); with a pending response, returns the
    pending pair and clears the slots without touching committed history. -/
def rewind (s : ChatSession) :
    Except PyError (Option Content × Content) × ChatSession :=
  match s.lastReceived with
  | Option.none =>
    match s.history.reverse with
    | lastc :: prevc :: rest =>
      (.ok (some prevc, lastc), { s with history := rest.reverse })
    | _ => (.error .indexError, s)
  | some last =>
    match last.candidates with
    | [] => (.error .indexError, s)
    | cand :: _ =>
      (.ok (s.lastSent, cand.content),
       { s with lastSent := Option.none, lastReceived := Option.none })

/-- One request to the model-invocation collaborator, as send_message and
    the AFC loop pass it to GenerativeModel.generate_content: the contents,
    the per-call generation and safety overrides, the streaming flag, the
    tool declarations, and the per-call tool_config override. -/
structure Request where
  contents : List Content
  genConfig : List (String × JVal)
  safety : Option JVal
  stream : Bool
  tools : Option (List (List FnDeclProto))
  toolConfig : Option JVal
deriving DecidableEq

/-- The run state of the mock model collaborator: the remaining scripted
    responses, the log of issued requests, and the function calls invoked
    through the library. -/
structure RunState where
  script : List Response
  log : List Request
  invoked : List FunctionCall
deriving DecidableEq

/-- The mock model-invocation collaborator: records the request and yields
    the next scripted response. -/
def mockGenerate (contents : List Content) (genConfig : List (String × JVal))
    (safety : Option JVal) (stream : Bool) (tools : Option (List (List FnDeclProto)))
    (toolConfig : Option JVal) (st : RunState) : Except PyError Response × RunState :=
  let st :=
    { st with
        log := st.log ++ [(⟨contents, genConfig, safety, stream, tools, toolConfig⟩ : Request)] }
  match st.script with
  | [] => (.error .scriptEnd, st)
  | r :: rest => (.ok r, { st with script := rest })

/-- ChatSession._check_response: a blocked prompt raises immediately; for a
    non-streaming response an abnormal finish of candidates[0] raises
    StopCandidateException. -/
def check_response (response : Response) (stream : Bool) : Except PyError Unit :=
  if response.blockReason then .error .blockedPrompt
  else if stream then .ok ()
  else
    match response.candidates with
    | [] => .error .indexError
    | cand :: _ =>
      if normalFinish cand.finishReason then .ok () else .error .stopCandidate

/-- The function-call variant of a part, for the parts filter of
    _get_function_calls. -/
def partFC : Part → Option FunctionCall
  | .functionCall fc => some fc
  | _ => Option.none

/-- ChatSession._get_function_calls: requires exactly one candidate
    (ValueError otherwise) and collects the function-call parts. -/
def get_function_calls (response : Response) : Except PyError (List FunctionCall) :=
  match response.candidates with
  | [cand] => .ok (cand.content.parts.filterMap partFC)
  | _ => .error .valueError

/-- The all(callable(tools_lib[fc])) guard of the AFC loop: lazily resolves
    each call (KeyError on an unknown name) and stops at the first
    non-callable declaration. -/
def all_callable (lib : FunctionLibrary) : List FunctionCall → Except PyError Bool
  | [] => .ok true
  | fc :: rest =>
    match lib.getFC fc with
    | .error e => .error e
    | .ok d => if d.isCallable then all_callable lib rest else .ok false

/-- The invocation loop of _handle_afc: tools_lib(fc) for each call, with
    the assertion that a guarded-callable invocation never yields null.
    Each successful invocation is recorded in the run state. -/
def invoke_all (lib : FunctionLibrary) (fcs : List FunctionCall) (st : RunState) :
    Except PyError (List Part) × RunState :=
  match fcs with
  | [] => (.ok [], st)
  | fc :: rest =>
    match lib.callFC fc with
    | .error e => (.error e, st)
    | .ok Option.none => (.error .assertionError, st)
    | .ok (some pt) =>
      let st := { st with invoked := st.invoked ++ [fc] }
      match invoke_all lib rest st with
      | (.error e, st) => (.error e, st)
      | (.ok pts, st) => (.ok (pt :: pts), st)

/-- The starred unpacking `*history, content = history`. -/
def splitLast (l : List Content) : Except PyError (List Content × Content) :=
  match l.getLast? with
  | Option.none => .error .valueError
  | some c => .ok (l.dropLast, c)

/-- ChatSession._handle_afc's while-loop: while the single candidate has
    function calls all resolvable to callables, commit the candidate
    content to the working history, invoke every call, append one
    role-"user" content holding the response parts, and issue another
    model-call round with the same generation/safety overrides and the same
    tools library but no tool_config.  The fuel only bounds the number of
    loop iterations; the caller passes one more than the script length, and
    each iteration consumes one scripted response, so the fuel-out branch
    is unreachable. -/
def handle_afc (fuel : Nat) (lib : FunctionLibrary) (response : Response)
    (history : List Content) (genConfig : List (String × JVal))
    (safety : Option JVal) (stream : Bool) (st : RunState) :
    Except PyError (List Content × Response) × RunState :=
  match fuel with
  | 0 => (.error .fuelOut, st)
  | fuel+1 =>
    match get_function_calls response with
    | .error e => (.error e, st)
    | .ok [] => (.ok (history, response), st)
    | .ok (fc0 :: fcrest) =>
      let fcs := fc0 :: fcrest
      match all_callable lib fcs with
      | .error e => (.error e, st)
      | .ok false => (.ok (history, response), st)
      | .ok true =>
        match response.candidates with
        | [cand] =>
          let history := history ++ [cand.content]
          match invoke_all lib fcs st with
          | (.error e, st) => (.error e, st)
          | (.ok frParts, st) =>
            let send : Content := ⟨"user", frParts⟩
            let history := history ++ [send]
            match mockGenerate history genConfig safety stream
                (some lib.toProto) Option.none st with
            | (.error e, st) => (.error e, st)
            | (.ok resp, st) =>
              match check_response resp stream with
              | .error e => (.error e, st)
              | .ok _ => handle_afc fuel lib resp history genConfig safety stream st
        | _ => (.error .valueError, st)

/-- generation_config.get("candidate_count", 1). -/
def candidateCount (g : List (String × JVal)) : Int :=
  match List.lookup "candidate_count" g with
  | some (.int n) => n
  | _ => 1

/-- ChatSession.send_message: rejects AFC together with streaming; coerces
    the message content and defaults its role to "user"; reads the history
    property (committing or raising on a pending turn); rejects
    candidate_count > 1; issues round 0 to the model collaborator with the
    tools library and the caller's tool_config; validates the response;
    with AFC enabled and a tools library attached runs the AFC loop, stores
    its trimmed working history through the history setter, and leaves the
    last function-response content and final response pending; otherwise
    leaves the sent content and response pending. -/
def send_message (s : ChatSession) (enableAFC : Bool) (input : PyVal)
    (genConfig : List (String × JVal)) (safety : Option JVal) (stream : Bool)
    (toolsLib : Option FunctionLibrary) (toolConfig : Option JVal)
    (st : RunState) : Except PyError Response × ChatSession × RunState :=
  if enableAFC && stream then (.error .notImplementedError, s, st)
  else
    match to_content input with
    | .error e => (.error e, s, st)
    | .ok c0 =>
      let c := if c0.role = "" then { c0 with role := "user" } else c0
      match historyRead s with
      | (.error e, s) => (.error e, s, st)
      | (.ok h, s) =>
        let history := h ++ [c]
        if candidateCount genConfig > 1 then (.error .valueError, s, st)
        else
          match mockGenerate history genConfig safety stream
              (toolsLib.map FunctionLibrary.toProto) toolConfig st with
          | (.error e, st) => (.error e, s, st)
          | (.ok response, st) =>
            match check_response response stream with
            | .error e => (.error e, s, st)
            | .ok _ =>
              match enableAFC, toolsLib with
              | true, some lib =>
                match handle_afc (st.script.length + 1) lib response history
                    genConfig safety stream st with
                | (.error e, st) => (.error e, s, st)
                | (.ok (hist, resp), st) =>
                  match splitLast hist with
                  | .error e => (.error e, s, st)
                  | .ok (histInit, contentLast) =>
                    (.ok resp,
                     { (historySet s histInit) with
                         lastSent := some contentLast, lastReceived := some resp },
                     st)
              | _, _ =>
                (.ok response,
                 { s with lastSent := some c, lastReceived := some response },
                 st)

/-! ### Supporting lemmas -/

/-- The strict conversion is the identity on canonical Contents. -/
lemma strict_list_canonical (h : List Content) :
    strict_list (h.map PyVal.content) = .ok h := by
  induction h with
  | nil => rfl
  | cons x rest ih => simp [strict_list, strict_to_content, ih]

/-- The Contents coercer is the identity on a list of canonical Contents;
    this is why the embedded history setter stores the assigned list as-is. -/
lemma to_contents_canonical_list (h : List Content) :
    to_contents (some (.list (h.map PyVal.content))) = .ok h := by
  simp [to_contents, strict_list_canonical]

/-- Starred unpacking of a list with an explicit final element. -/
lemma splitLast_concat (l : List Content) (x : Content) :
    splitLast (l ++ [x]) = .ok (l, x) := by
  simp [splitLast]

/-- A key absent from the key list of an association list is not found. -/
lemma lookup_none_of_not_mem_keys {β : Type} (idx : List (String × β)) (k : String)
    (h : k ∉ idx.map Prod.fst) : List.lookup k idx = Option.none := by
  rw [List.lookup_eq_none_iff]
  intro p hp
  have hmem : p.1 ∈ idx.map Prod.fst := List.mem_map_of_mem Prod.fst hp
  simp only [bne_iff_ne, ne_eq]
  rintro rfl
  exact h hmem

/-- A key present in the key list of an association list is found. -/
lemma lookup_isSome_of_mem_keys {β : Type} (idx : List (String × β)) (k : String)
    (h : k ∈ idx.map Prod.fst) : (List.lookup k idx).isSome := by
  rw [List.lookup_isSome_iff]
  obtain ⟨p, hp, hpk⟩ := List.mem_map.mp h
  exact ⟨p, hp, by simp [hpk]⟩

/-- With distinct names, the name index maps each declaration's name back
    to that declaration. -/
lemma lookup_name_map (ds : List FnDecl) (hnd : (ds.map FnDecl.name).Nodup)
    (d : FnDecl) (hd : d ∈ ds) :
    List.lookup d.name (ds.map fun x => (x.name, x)) = some d := by
  induction ds with
  | nil => cases hd
  | cons x rest ih =>
    rcases List.mem_cons.mp hd with rfl | hdr
    · simp [List.lookup_cons]
    · have hx : (d.name == x.name) = false := by
        have hxn : x.name ∉ rest.map FnDecl.name := (List.nodup_cons.mp hnd).1
        have hdn : d.name ∈ rest.map FnDecl.name := List.mem_map_of_mem FnDecl.name hdr
        rw [beq_eq_false_iff_ne]
        intro hEq
        exact hxn (hEq ▸ hdn)
      simp only [List.map_cons, List.lookup_cons, hx]
      exact ih (List.nodup_cons.mp hnd).2 hdr

/-- The index build succeeds on distinct names and appends in order. -/
lemma buildIndex_go_ok (ds : List FnDecl) : ∀ idx : List (String × FnDecl),
    (ds.map FnDecl.name).Nodup →
    (∀ d ∈ ds, d.name ∉ idx.map Prod.fst) →
    buildIndex.go idx ds = .ok (idx ++ ds.map fun d => (d.name, d)) := by
  induction ds with
  | nil => intro idx _ _; simp [buildIndex.go]
  | cons d rest ih =>
    intro idx hnd hfresh
    have hlk : List.lookup d.name idx = Option.none :=
      lookup_none_of_not_mem_keys idx d.name (hfresh d (by simp))
    simp only [buildIndex.go, addDecl, hlk, Option.isSome_none, Bool.false_eq_true,
      if_false]
    rw [ih (idx ++ [(d.name, d)]) (List.nodup_cons.mp hnd).2]
    · simp
    · intro d2 hd2
      simp only [List.map_append, List.map_cons, List.map_nil, List.mem_append,
        List.mem_singleton]
      rintro (h2 | h2)
      · exact hfresh d2 (by simp [hd2]) h2
      · exact (List.nodup_cons.mp hnd).1 (h2 ▸ List.mem_map_of_mem FnDecl.name hd2)

/-- The index build fails on a repeated name. -/
lemma buildIndex_go_err (ds : List FnDecl) : ∀ idx : List (String × FnDecl),
    (¬ (ds.map FnDecl.name).Nodup ∨ ∃ d ∈ ds, d.name ∈ idx.map Prod.fst) →
    buildIndex.go idx ds = .error .valueError := by
  induction ds with
  | nil =>
    intro idx h
    rcases h with h | ⟨d, hd, _⟩
    · simp at h
    · simp at hd
  | cons d rest ih =>
    intro idx h
    by_cases hd : d.name ∈ idx.map Prod.fst
    · have hlk : (List.lookup d.name idx).isSome := lookup_isSome_of_mem_keys idx d.name hd
      simp [buildIndex.go, addDecl, hlk]
    · have hlk : List.lookup d.name idx = Option.none :=
        lookup_none_of_not_mem_keys idx d.name hd
      simp only [buildIndex.go, addDecl, hlk, Option.isSome_none, Bool.false_eq_true,
        if_false]
      apply ih
      rcases h with h | ⟨d2, hd2, hmem⟩
      · rw [List.map_cons, List.nodup_cons] at h
        push_neg at h
        by_cases hmem2 : d.name ∈ rest.map FnDecl.name
        · obtain ⟨d3, hd3, hd3n⟩ := List.mem_map.mp hmem2
          exact Or.inr ⟨d3, hd3, by simp [hd3n]⟩
        · exact Or.inl (h hmem2)
      · rcases List.mem_cons.mp hd2 with rfl | hd2r
        · exact absurd hmem hd
        · exact Or.inr ⟨d2, hd2r, by simp [hmem]⟩

lemma buildIndex_ok (ds : List FnDecl) (hnd : (ds.map FnDecl.name).Nodup) :
    buildIndex ds = .ok (ds.map fun d => (d.name, d)) := by
  have := buildIndex_go_ok ds [] hnd (by simp)
  simpa [buildIndex] using this

lemma buildIndex_err (ds : List FnDecl) (hnd : ¬ (ds.map FnDecl.name).Nodup) :
    buildIndex ds = .error .valueError := by
  have := buildIndex_go_err ds [] (Or.inl hnd)
  simpa [buildIndex] using this

/-- The complete computation of one automatic-function-calling round trip:
    from an idle session, with a script of one single-function-call
    response then one plain-text response and a library resolving the call
    to a callable, send_message returns the final response, leaves the
    trimmed history committed with the function-response content and final
    response pending, logs exactly two requests — the continuation carrying
    the same generation/safety overrides and the same tools but no
    tool_config — and invokes the callable once. -/
lemma afc_run_eq
    (h0 : List Content) (c mc tc : Content) (n t : String)
    (args : List (String × JVal)) (lib : FunctionLibrary) (pr : FnDeclProto)
    (fn : List (String × JVal) → JVal)
    (genConfig : List (String × JVal)) (safety : Option JVal) (toolConfig : Option JVal)
    (hrole : c.role = "user")
    (hlib : List.lookup n lib.index = some (.callable pr fn))
    (hmc : mc.parts = [.functionCall ⟨n, args⟩])
    (htc : tc.parts = [.text t])
    (hcc : candidateCount genConfig ≤ 1) :
    send_message ⟨h0, Option.none, Option.none⟩ true (.content c) genConfig safety false
        (some lib) toolConfig
        ⟨[⟨[⟨mc, .stop⟩], false, Option.none⟩, ⟨[⟨tc, .stop⟩], false, Option.none⟩], [], []⟩
      = (.ok ⟨[⟨tc, .stop⟩], false, Option.none⟩,
         ⟨h0 ++ [c, mc],
          some ⟨"user", [.functionResponse ⟨n, wrapResult (fn args)⟩]⟩,
          some ⟨[⟨tc, .stop⟩], false, Option.none⟩⟩,
         ⟨[],
          [⟨h0 ++ [c], genConfig, safety, false, some lib.toProto, toolConfig⟩,
           ⟨h0 ++ [c, mc, ⟨"user", [.functionResponse ⟨n, wrapResult (fn args)⟩]⟩],
            genConfig, safety, false, some lib.toProto, Option.none⟩],
          [⟨n, args⟩]⟩) := by
  have hgt : ¬ (candidateCount genConfig > 1) := by omega
  have hsplit := splitLast_concat (h0 ++ [c, mc])
    ⟨"user", [.functionResponse ⟨n, wrapResult (fn args)⟩]⟩
  simp only [send_message, Bool.and_false, Bool.false_eq_true, if_false,
    to_content, pyFalsy, historyRead, hrole, hgt, mockGenerate, check_response,
    normalFinish, handle_afc, get_function_calls, hmc, htc, all_callable,
    FunctionLibrary.getFC, FunctionLibrary.getName, hlib, FnDecl.isCallable,
    invoke_all, FunctionLibrary.callFC, callable_call, splitLast]
  simp only [List.filterMap_cons, List.filterMap_nil, partFC, hlib,
    FnDecl.isCallable, all_callable, FunctionLibrary.getFC, FunctionLibrary.getName,
    invoke_all, FunctionLibrary.callFC, callable_call, mockGenerate, check_response,
    normalFinish, handle_afc, get_function_calls, htc, splitLast, historySet]
  simp [hlib, hsplit, splitLast, List.append_assoc]

/-- The invocation loop of _handle_afc never touches the request log: it
    only records invocations. -/
lemma invoke_all_log (lib : FunctionLibrary) (fcs : List FunctionCall) :
    ∀ st : RunState, ((invoke_all lib fcs st).2).log = st.log := by
  induction fcs with
  | nil => intro st; rfl
  | cons fc rest ih =>
    intro st
    simp only [invoke_all]
    cases hc : lib.callFC fc with
    | error e => rfl
    | ok o =>
      cases o with
      | none => rfl
      | some pt =>
        rcases hrec : invoke_all lib rest { st with invoked := st.invoked ++ [fc] }
          with ⟨r1, st2⟩
        have hlog := ih { st with invoked := st.invoked ++ [fc] }
        rw [hrec] at hlog
        simp at hlog
        cases r1 <;> simp [hrec, hlog]

/-- Every request the AFC loop logs — over any number of iterations, on any
    termination or error path — carries the loop's generation and safety
    overrides and streaming flag, attaches the library's tool declarations,
    and omits the tool_config. -/
lemma handle_afc_log (lib : FunctionLibrary) (genConfig : List (String × JVal))
    (safety : Option JVal) (stream : Bool) :
    ∀ (fuel : Nat) (response : Response) (history : List Content) (st : RunState),
    ∃ rest, ((handle_afc fuel lib response history genConfig safety stream st).2).log
        = st.log ++ rest
      ∧ ∀ req ∈ rest, req.genConfig = genConfig ∧ req.safety = safety ∧
          req.stream = stream ∧ req.tools = some lib.toProto ∧
          req.toolConfig = Option.none := by
  intro fuel
  induction fuel with
  | zero =>
    intro response history st
    exact ⟨[], by simp [handle_afc], by simp⟩
  | succ fuel ih =>
    intro response history st
    cases hgfc : get_function_calls response with
    | error e => exact ⟨[], by simp [handle_afc, hgfc], by simp⟩
    | ok fcs =>
      cases fcs with
      | nil => exact ⟨[], by simp [handle_afc, hgfc], by simp⟩
      | cons fc0 fcrest =>
        cases hac : all_callable lib (fc0 :: fcrest) with
        | error e => exact ⟨[], by simp [handle_afc, hgfc, hac], by simp⟩
        | ok b =>
          cases b with
          | false => exact ⟨[], by simp [handle_afc, hgfc, hac], by simp⟩
          | true =>
            cases hcand : response.candidates with
            | nil => exact ⟨[], by simp [handle_afc, hgfc, hac, hcand], by simp⟩
            | cons cand restc =>
              cases restc with
              | cons c2 restc2 =>
                exact ⟨[], by simp [handle_afc, hgfc, hac, hcand], by simp⟩
              | nil =>
                rcases hinv : invoke_all lib (fc0 :: fcrest) st with ⟨r1, st1⟩
                have hlog1 : st1.log = st.log := by
                  have := invoke_all_log lib (fc0 :: fcrest) st
                  rw [hinv] at this
                  exact this
                cases r1 with
                | error e =>
                  refine ⟨[], ?_, by simp⟩
                  simp [handle_afc, hgfc, hac, hcand, hinv, hlog1]
                | ok frParts =>
                  cases hscript : st1.script with
                  | nil =>
                    refine ⟨[⟨history ++ [cand.content] ++ [⟨"user", frParts⟩],
                        genConfig, safety, stream, some lib.toProto, Option.none⟩],
                      ?_, by simp⟩
                    simp [handle_afc, hgfc, hac, hcand, hinv, mockGenerate, hscript,
                      hlog1]
                  | cons r srest =>
                    cases hchk : check_response r stream with
                    | error e =>
                      refine ⟨[⟨history ++ [cand.content] ++ [⟨"user", frParts⟩],
                          genConfig, safety, stream, some lib.toProto, Option.none⟩],
                        ?_, by simp⟩
                      simp [handle_afc, hgfc, hac, hcand, hinv, mockGenerate, hscript,
                        hchk, hlog1]
                    | ok u =>
                      obtain ⟨rest2, heq2, hprops2⟩ := ih r
                        (history ++ [cand.content] ++ [⟨"user", frParts⟩])
                        { script := srest,
                          log := st1.log ++ [⟨history ++ [cand.content] ++
                            [⟨"user", frParts⟩],
                            genConfig, safety, stream, some lib.toProto, Option.none⟩],
                          invoked := st1.invoked }
                      refine ⟨⟨history ++ [cand.content] ++ [⟨"user", frParts⟩],
                          genConfig, safety, stream, some lib.toProto, Option.none⟩
                            :: rest2,
                        ?_, ?_⟩
                      · simp only [handle_afc, hgfc, hac, hcand, hinv, mockGenerate,
                          hscript, hchk]
                        simp only at heq2
                        rw [heq2, hlog1]
                        simp
                      · intro req hreq
                        rcases List.mem_cons.mp hreq with rfl | hmem
                        · exact ⟨rfl, rfl, rfl, rfl, rfl⟩
                        · exact hprops2 req hmem

/-- The part-dict and blob-dict branches of _convert_dict never produce a
    Content. -/
lemma convert_nonparts_ne_content :
    ∀ fuel fields c, convert_nonparts fuel fields ≠ .ok (.content c) := by
  intro fuel fields c h
  match fuel with
  | 0 => simp [convert_nonparts] at h
  | fuel+1 =>
    rcases fields with _ | ⟨⟨k, v⟩, rest⟩
    · simp [convert_nonparts, blob_or_key, is_blob_dict, hasKey] at h
    · rcases rest with _ | ⟨p2, rest2⟩
      · simp only [convert_nonparts] at h
        split_ifs at h <;>
          first
          | (split at h <;> simp_all)
          | (simp only [blob_or_key] at h; split_ifs at h <;> (try split at h) <;> simp_all)
      · simp only [convert_nonparts, blob_or_key] at h
        split_ifs at h <;> (try split at h) <;> simp_all

/-- A dict only converts to a Content when it has a "parts" key. -/
lemma convert_dict_f_content_has_parts (fuel : Nat) (fields : List (String × PyVal))
    (c : Content) (h : convert_dict_f fuel fields = .ok (.content c)) :
    (List.lookup "parts" fields).isSome := by
  match fuel with
  | 0 => simp [convert_dict_f] at h
  | fuel+1 =>
    cases hlk : List.lookup "parts" fields with
    | some pv => simp
    | none =>
      exfalso
      apply convert_nonparts_ne_content fuel fields c
      rw [convert_dict_f, hlk] at h
      exact h

/-! ### Theorems for the claims -/

/-- C4 (code bug witness): for every canonical FunctionResponse value, the
    Part coercer raises TypeError instead of producing the functionResponse
    variant, because the source's second isinstance test repeats
    glm.FunctionCall and the function_response branch is unreachable; the
    value falls through to the blob fallback, which rejects it.  The dict
    spelling of the same part converts fine, confirming the intent. -/
theorem to_part_functionResponse_raises :
    (∀ fr : FunctionResponse, to_part (.functionResponse fr) = .error .typeError)
    ∧ to_part (.functionResponse ⟨"f", [("result", .int 7)]⟩) = .error .typeError
    ∧ to_part (.dict [("function_response", .functionResponse ⟨"f", [("result", .int 7)]⟩)])
        = .ok (.functionResponse ⟨"f", [("result", .int 7)]⟩) :=
  ⟨fun _ => rfl, rfl, rfl⟩

/-- C10: with no pending turn and fewer than two committed entries, rewind
    raises IndexError (pop(-2) fails before any mutation) and leaves the
    session unchanged — it never returns a partial pair. -/
theorem rewind_underflow (s : ChatSession)
    (hp : s.lastReceived = Option.none) (hlen : s.history.length < 2) :
    rewind s = (.error .indexError, s) := by
  obtain ⟨h, ls, lr⟩ := s
  simp only at hp hlen
  subst hp
  match h, hlen with
  | [], _ => rfl
  | [a], _ => rfl

/-- Witness for C10 at a one-entry history. -/
theorem rewind_underflow_witness :
    (⟨[⟨"user", [.text "q"]⟩], Option.none, Option.none⟩ : ChatSession).lastReceived
        = Option.none
    ∧ (⟨[⟨"user", [.text "q"]⟩], Option.none, Option.none⟩ : ChatSession).history.length < 2
    ∧ rewind ⟨[⟨"user", [.text "q"]⟩], Option.none, Option.none⟩ =
        (.error .indexError, ⟨[⟨"user", [.text "q"]⟩], Option.none, Option.none⟩) :=
  ⟨rfl, by decide, rewind_underflow _ rfl (by decide)⟩

/-- C5: a pending turn whose single candidate finished abnormally makes
    every history read raise BrokenResponseError (the pending response gets
    a stored error) until rewind clears the pending pair; after rewind a
    history read succeeds with the committed history untouched. -/
theorem broken_history_until_rewind
    (h0 : List Content) (sent : Content) (cand : Candidate) (r : Response)
    (hc : r.candidates = [cand])
    (hf : normalFinish cand.finishReason = false) :
    (historyRead ⟨h0, some sent, some r⟩).1 = .error .brokenResponse
    ∧ (historyRead ⟨h0, some sent, some r⟩).2 =
        ⟨h0, some sent, some { r with error := some .stopCandidate }⟩
    ∧ (historyRead (historyRead ⟨h0, some sent, some r⟩).2).1 = .error .brokenResponse
    ∧ rewind (historyRead ⟨h0, some sent, some r⟩).2 =
        (.ok (some sent, cand.content), ⟨h0, Option.none, Option.none⟩)
    ∧ (historyRead (rewind (historyRead ⟨h0, some sent, some r⟩).2).2).1 = .ok h0 := by
  refine ⟨?_, ?_, ?_, ?_, ?_⟩ <;>
    simp [historyRead, rewind, hc, hf]

/-- Witness for C5: a safety-blocked candidate on a two-entry history. -/
theorem broken_history_until_rewind_witness :
    (⟨[⟨⟨"model", [.text "y"]⟩, .safety⟩], false, Option.none⟩ : Response).candidates
        = [(⟨⟨"model", [.text "y"]⟩, .safety⟩ : Candidate)]
    ∧ normalFinish (FinishReason.safety) = false
    ∧ (historyRead ⟨[⟨"user", [.text "q"]⟩, ⟨"model", [.text "a"]⟩],
          some ⟨"user", [.text "x"]⟩,
          some ⟨[⟨⟨"model", [.text "y"]⟩, .safety⟩], false, Option.none⟩⟩).1
        = .error .brokenResponse
    ∧ (historyRead (rewind (historyRead ⟨[⟨"user", [.text "q"]⟩, ⟨"model", [.text "a"]⟩],
          some ⟨"user", [.text "x"]⟩,
          some ⟨[⟨⟨"model", [.text "y"]⟩, .safety⟩], false, Option.none⟩⟩).2).2).1
        = .ok [⟨"user", [.text "q"]⟩, ⟨"model", [.text "a"]⟩] :=
  ⟨by decide, by decide,
   (broken_history_until_rewind [⟨"user", [.text "q"]⟩, ⟨"model", [.text "a"]⟩]
      ⟨"user", [.text "x"]⟩ ⟨⟨"model", [.text "y"]⟩, .safety⟩
      ⟨[⟨⟨"model", [.text "y"]⟩, .safety⟩], false, Option.none⟩ rfl (by decide)).1,
   (broken_history_until_rewind [⟨"user", [.text "q"]⟩, ⟨"model", [.text "a"]⟩]
      ⟨"user", [.text "x"]⟩ ⟨⟨"model", [.text "y"]⟩, .safety⟩
      ⟨[⟨⟨"model", [.text "y"]⟩, .safety⟩], false, Option.none⟩ rfl (by decide)).2.2.2.2⟩

/-- C8: invoking the library on a resolvable call returns null for a
    non-callable declaration, and for a callable declaration returns a
    functionResponse Part carrying the call's name and the callable's
    result — used as the response mapping when it is a mapping, wrapped as
    {"result": value} otherwise. -/
theorem library_invoke
    (lib : FunctionLibrary) (fc : FunctionCall) (d : FnDecl)
    (hres : List.lookup fc.name lib.index = some d) :
    (d.isCallable = false → lib.callFC fc = .ok Option.none)
    ∧ (∀ pr fn fields, d = .callable pr fn → fn fc.args = .obj fields →
        lib.callFC fc = .ok (some (.functionResponse ⟨fc.name, fields⟩)))
    ∧ (∀ pr fn, d = .callable pr fn → (∀ fields, fn fc.args ≠ .obj fields) →
        lib.callFC fc = .ok (some (.functionResponse ⟨fc.name, [("result", fn fc.args)]⟩))) := by
  refine ⟨?_, ?_, ?_⟩
  · intro hnc
    cases d with
    | plain pr => simp [FunctionLibrary.callFC, FunctionLibrary.getFC,
        FunctionLibrary.getName, hres]
    | callable pr fn => simp [FnDecl.isCallable] at hnc
  · intro pr fn fields hd hobj
    subst hd
    simp [FunctionLibrary.callFC, FunctionLibrary.getFC, FunctionLibrary.getName,
      hres, callable_call, wrapResult, hobj]
  · intro pr fn hd hnobj
    subst hd
    simp only [FunctionLibrary.callFC, FunctionLibrary.getFC, FunctionLibrary.getName,
      hres, callable_call]
    congr 2
    cases hv : fn fc.args with
    | obj fields => exact absurd hv (hnobj fields)
    | _ => simp [wrapResult, hv]

/-- Witness for C8: a library with one plain and one callable declaration,
    the callable returning a non-mapping value. -/
theorem library_invoke_witness :
    List.lookup "g" invokeWitnessLib.index = some (.plain ⟨"g", "", Option.none⟩)
    ∧ invokeWitnessLib.callFC ⟨"g", []⟩ = .ok Option.none
    ∧ invokeWitnessLib.callFC ⟨"f", [("x", .int 1)]⟩
      = .ok (some (.functionResponse ⟨"f", [("result", .int 7)]⟩)) := by
  refine ⟨rfl, ?_, ?_⟩
  · exact (library_invoke invokeWitnessLib ⟨"g", []⟩
      (.plain ⟨"g", "", Option.none⟩) rfl).1 rfl
  · exact (library_invoke invokeWitnessLib ⟨"f", [("x", .int 1)]⟩
      (.callable ⟨"f", "", Option.none⟩ (fun _ => .int 7)) rfl).2.2
      ⟨"f", "", Option.none⟩ (fun _ => .int 7) rfl (by intro fields h; cases h)

/-- C6 counterexample: a caller-supplied empty `required` list is NOT taken
    verbatim — the source tests Python truthiness (`if required:`), so an
    explicit empty list falls back to inference and yields ["a"]. -/
theorem synthesize_required_empty_not_verbatim :
    jGetKey (objFields (synthesize_schema exampleFunc [] (some []))) "required"
        = some (.list [.str "a"])
    ∧ jGetKey (objFields (synthesize_schema exampleFunc [] (some []))) "required"
        ≠ some (.list []) := by
  refine ⟨by decide, by decide⟩

/-- C6 (amended): on f(a: int, b: str = "x") the synthesizer with no
    caller-supplied `required` infers required = ["a"]; the renamed schema
    holds no raw "type"/"format" key anywhere and carries the rewritten
    type_ fields at every level; and a caller-supplied NON-EMPTY `required`
    is taken verbatim. -/
theorem synthesize_schema_example :
    jGetKey (objFields (synthesize_schema exampleFunc [] Option.none)) "required"
        = some (.list [.str "a"])
    ∧ noTypeFormatKeys (synthesize_schema exampleFunc [] Option.none) = true
    ∧ synthesize_schema exampleFunc [] Option.none =
        .obj [("type_", .str "OBJECT"),
              ("properties",
               .obj [("a", .obj [("type_", .str "INTEGER")]),
                     ("b", .obj [("type_", .str "STRING")])]),
              ("required", .list [.str "a"])]
    ∧ ∀ req : List String, req ≠ [] →
        jGetKey (objFields (synthesize_schema exampleFunc [] (some req))) "required"
          = some (.list (req.map .str)) := by
  refine ⟨by decide, by decide, by decide, ?_⟩
  intro req hreq
  cases req with
  | nil => exact absurd rfl hreq
  | cons a as => rfl

/-- Witness for C6 at the supplied list ["b"]. -/
theorem synthesize_schema_example_witness :
    (["b"] : List String) ≠ []
    ∧ jGetKey (objFields (synthesize_schema exampleFunc [] (some ["b"]))) "required"
        = some (.list [.str "b"]) :=
  ⟨by decide, synthesize_schema_example.2.2.2 ["b"] (by decide)⟩

/-- C3 (amended): for a non-string, non-dict iterable, if every element
    strictly converts the result is that sequence of Contents; if the
    per-element attempt fails with a TypeError the whole iterable is
    treated as the parts of a single Content via to_content; but any other
    per-element error (a dict with unrecognized keys raises KeyError)
    propagates without the fallback.  An element failing the spec's strict
    check (not a canonical Content nor a dict with a "parts" key) never
    strictly converts, and a failing non-dict element always fails with the
    benign TypeError.  The two spec examples behave as stated. -/
theorem to_contents_disambiguation (l : List PyVal) :
    ((∃ cs, strict_list l = .ok cs) → to_contents (some (.list l)) = strict_list l)
    ∧ (strict_list l = .error .typeError →
        to_contents (some (.list l)) = (to_content (.list l)).map (fun c => [c]))
    ∧ (∀ e, e ≠ .typeError → strict_list l = .error e →
        to_contents (some (.list l)) = .error e)
    ∧ (∀ x, claimStrictCheck x = false → ∀ c, strict_to_content x ≠ .ok c)
    ∧ (∀ x, (∀ fields, x ≠ .dict fields) → claimStrictCheck x = false →
        strict_to_content x = .error .typeError)
    ∧ to_contents (some (.list [.dict [("parts", .list [.str "a"])],
          .dict [("parts", .list [.str "b"])]]))
        = .ok [⟨"", [.text "a"]⟩, ⟨"", [.text "b"]⟩]
    ∧ to_contents (some (.list [.str "a", .str "b"]))
        = .ok [⟨"", [.text "a", .text "b"]⟩] := by
  refine ⟨?_, ?_, ?_, ?_, ?_, by decide, by decide⟩
  · rintro ⟨cs, h⟩
    simp [to_contents, h]
  · intro h
    cases htc : to_content (.list l) <;> simp [to_contents, h, htc, Except.map]
  · intro e he h
    cases e <;> simp_all [to_contents]
  · intro x hx c hok
    cases x <;> simp_all [claimStrictCheck, strict_to_content]
    case dict fields =>
      rcases hcv : convert_dict fields with e | cv
      · rw [hcv] at hok; cases hok
      · rw [hcv] at hok
        cases cv with
        | content c2 =>
          have hmem := convert_dict_f_content_has_parts _ fields c2 hcv
          simp [hasKey] at hx
          simp at hmem
          obtain ⟨x, hxmem⟩ := hmem
          exact hx _ _ hxmem rfl
        | part p => cases hok
        | blob b => cases hok
  · intro x hnd hx
    cases x <;> simp_all [claimStrictCheck, strict_to_content]

/-- Witness for C3 at the spec's own list-of-content-dicts example. -/
theorem to_contents_disambiguation_witness :
    strict_list [PyVal.dict [("parts", .list [.str "a"])],
        PyVal.dict [("parts", .list [.str "b"])]]
      = .ok [⟨"", [.text "a"]⟩, ⟨"", [.text "b"]⟩]
    ∧ to_contents (some (.list [PyVal.dict [("parts", .list [.str "a"])],
        PyVal.dict [("parts", .list [.str "b"])]]))
      = strict_list [PyVal.dict [("parts", .list [.str "a"])],
        PyVal.dict [("parts", .list [.str "b"])]] :=
  ⟨by decide,
   (to_contents_disambiguation [PyVal.dict [("parts", .list [.str "a"])],
     PyVal.dict [("parts", .list [.str "b"])]]).1
     ⟨[⟨"", [.text "a"]⟩, ⟨"", [.text "b"]⟩], by decide⟩⟩

/-- C3 counterexample: the list [Content, {"x": "y"}] has an element failing
    the strict check, yet to_contents raises KeyError while the
    treat-as-single-content interpretation raises TypeError — the claimed
    unconditional fallback does not happen. -/
theorem to_contents_fallback_cex :
    (¬ ∀ x ∈ [PyVal.content ⟨"user", [.text "hi"]⟩, PyVal.dict [("x", .str "y")]],
        claimStrictCheck x = true)
    ∧ to_contents (some (.list [PyVal.content ⟨"user", [.text "hi"]⟩,
        PyVal.dict [("x", .str "y")]])) = .error .keyError
    ∧ (to_content (.list [PyVal.content ⟨"user", [.text "hi"]⟩,
        PyVal.dict [("x", .str "y")]])).map (fun c => [c]) = .error .typeError
    ∧ to_contents (some (.list [PyVal.content ⟨"user", [.text "hi"]⟩,
        PyVal.dict [("x", .str "y")]]))
      ≠ (to_content (.list [PyVal.content ⟨"user", [.text "hi"]⟩,
        PyVal.dict [("x", .str "y")]])).map (fun c => [c]) := by
  refine ⟨by decide, by decide, by decide, by decide⟩

/-- C9 counterexample: a session holding a benign pending turn (finish
    reason STOP) is in the PendingTurn state, yet send_message does not
    fail — it lazily commits the pending pair through the history read and
    returns the new response. -/
theorem send_message_pending_cex :
    (⟨[], some ⟨"user", [.text "q"]⟩,
       some ⟨[⟨⟨"model", [.text "a"]⟩, .stop⟩], false, Option.none⟩⟩ :
       ChatSession).lastReceived ≠ Option.none
    ∧ (send_message
        ⟨[], some ⟨"user", [.text "q"]⟩,
         some ⟨[⟨⟨"model", [.text "a"]⟩, .stop⟩], false, Option.none⟩⟩
        false (.content ⟨"user", [.text "again"]⟩) [] Option.none false
        Option.none Option.none
        ⟨[⟨[⟨⟨"model", [.text "b"]⟩, .stop⟩], false, Option.none⟩], [], []⟩).1
      = .ok ⟨[⟨⟨"model", [.text "b"]⟩, .stop⟩], false, Option.none⟩ := by
  refine ⟨by decide, by decide⟩

/-- C9 (amended): requesting automatic function calling together with
    streaming fails up front (NotImplementedError, the spec's
    PreconditionViolation), from any state; but send_message called in the
    PendingTurn state does not itself fail: a benign pending pair is
    committed into history by the history read and the call proceeds,
    sending the folded history plus the new message. -/
theorem send_message_preconditions
    (h0 : List Content) (sent : Content) (cand cand1 : Candidate) (r r1 : Response)
    (c : Content)
    (genConfig : List (String × JVal)) (safety : Option JVal) (toolConfig : Option JVal)
    (hc : r.candidates = [cand]) (hf : normalFinish cand.finishReason = true)
    (he : r.error = Option.none)
    (hrole : c.role = "user") (hcc : candidateCount genConfig ≤ 1)
    (hb1 : r1.blockReason = false) (hc1 : r1.candidates = [cand1])
    (hf1 : normalFinish cand1.finishReason = true) :
    (∀ (s2 : ChatSession) (st : RunState) (lib : Option FunctionLibrary) (tc2 : Option JVal)
        (input : PyVal),
      send_message s2 true input genConfig safety true lib tc2 st
        = (.error .notImplementedError, s2, st))
    ∧ send_message ⟨h0, some sent, some r⟩ false (.content c) genConfig safety false
        Option.none toolConfig ⟨[r1], [], []⟩
      = (.ok r1,
         ⟨h0 ++ [sent, model_role_default cand.content], some c, some r1⟩,
         ⟨[], [⟨h0 ++ [sent, model_role_default cand.content, c], genConfig, safety,
               false, Option.none, toolConfig⟩], []⟩) := by
  constructor
  · intro s2 st lib tc2 input
    rfl
  · have hgt : ¬ (candidateCount genConfig > 1) := by omega
    simp [send_message, to_content, pyFalsy, hrole, historyRead, hc, hf, he, hgt,
      mockGenerate, check_response, hb1, hc1, hf1]

/-- Witness for C9 at a concrete pending session and scripted response. -/
theorem send_message_preconditions_witness :
    (⟨[⟨⟨"model", [.text "a"]⟩, .stop⟩], false, Option.none⟩ : Response).candidates
      = [(⟨⟨"model", [.text "a"]⟩, .stop⟩ : Candidate)]
    ∧ send_message
        ⟨[], some ⟨"user", [.text "q"]⟩,
         some ⟨[⟨⟨"model", [.text "a"]⟩, .stop⟩], false, Option.none⟩⟩
        false (.content ⟨"user", [.text "again"]⟩) [] Option.none false
        Option.none Option.none
        ⟨[⟨[⟨⟨"model", [.text "b"]⟩, .stop⟩], false, Option.none⟩], [], []⟩
      = (.ok ⟨[⟨⟨"model", [.text "b"]⟩, .stop⟩], false, Option.none⟩,
         ⟨[⟨"user", [.text "q"]⟩, ⟨"model", [.text "a"]⟩],
          some ⟨"user", [.text "again"]⟩,
          some ⟨[⟨⟨"model", [.text "b"]⟩, .stop⟩], false, Option.none⟩⟩,
         ⟨[], [⟨[⟨"user", [.text "q"]⟩, ⟨"model", [.text "a"]⟩, ⟨"user", [.text "again"]⟩],
               [], Option.none, false, Option.none, Option.none⟩], []⟩) :=
  ⟨rfl,
   (send_message_preconditions [] ⟨"user", [.text "q"]⟩
      ⟨⟨"model", [.text "a"]⟩, .stop⟩ ⟨⟨"model", [.text "b"]⟩, .stop⟩
      ⟨[⟨⟨"model", [.text "a"]⟩, .stop⟩], false, Option.none⟩
      ⟨[⟨⟨"model", [.text "b"]⟩, .stop⟩], false, Option.none⟩
      ⟨"user", [.text "again"]⟩ [] Option.none Option.none
      rfl (by decide) rfl rfl (by decide) rfl rfl (by decide)).2⟩

/-- C7: building a FunctionLibrary from two tools sharing a function name
    fails at construction time (the Python ValueError standing for
    DuplicateFunctionName); with all-distinct names construction succeeds
    and every declared name — or a function call carrying it — resolves to
    the declaration from its owning tool. -/
theorem function_library_duplicates
    (t1 t2 : Tool)
    (h1 : (t1.decls.map FnDecl.name).Nodup)
    (h2 : (t2.decls.map FnDecl.name).Nodup) :
    ((∃ n, n ∈ t1.decls.map FnDecl.name ∧ n ∈ t2.decls.map FnDecl.name) →
       FunctionLibrary.make [t1, t2] = .error .valueError)
    ∧ ((∀ n ∈ t1.decls.map FnDecl.name, n ∉ t2.decls.map FnDecl.name) →
       ∃ lib, FunctionLibrary.make [t1, t2] = .ok lib ∧
         (∀ d ∈ t1.decls ++ t2.decls, List.lookup d.name lib.index = some d) ∧
         (∀ d ∈ t1.decls ++ t2.decls, ∀ fc : FunctionCall, fc.name = d.name →
            lib.getFC fc = .ok d)) := by
  constructor
  · rintro ⟨n, hn1, hn2⟩
    have hnd : ¬ (((t1.decls ++ t2.decls).map FnDecl.name).Nodup) := by
      rw [List.map_append, List.nodup_append]
      rintro ⟨-, -, hdisj⟩
      exact hdisj hn1 hn2
    have hbi := buildIndex_err _ hnd
    by_cases hflat : [t1, t2].all (fun t => t.decls.length == 1)
    · simp [FunctionLibrary.make, make_tools, hflat, Tool.make, hbi]
    · simp [FunctionLibrary.make, make_tools, hflat, hbi]
  · intro hdisj
    have hnd : (((t1.decls ++ t2.decls).map FnDecl.name).Nodup) := by
      rw [List.map_append, List.nodup_append]
      exact ⟨h1, h2, fun a ha1 ha2 => hdisj a ha1 ha2⟩
    have hbi := buildIndex_ok _ hnd
    have hres : ∀ d ∈ t1.decls ++ t2.decls,
        List.lookup d.name ((t1.decls ++ t2.decls).map fun x => (x.name, x)) = some d :=
      fun d hd => lookup_name_map _ hnd d hd
    by_cases hflat : [t1, t2].all (fun t => t.decls.length == 1)
    · refine ⟨⟨[⟨t1.decls ++ t2.decls⟩], (t1.decls ++ t2.decls).map fun d => (d.name, d)⟩,
        ?_, fun d hd => hres d hd, ?_⟩
      · simp [FunctionLibrary.make, make_tools, hflat, Tool.make, hbi]
      · intro d hd fc hfc
        have h := hres d hd
        rw [List.map_append] at h
        simp [FunctionLibrary.getFC, FunctionLibrary.getName, hfc, h]
    · refine ⟨⟨[t1, t2], (t1.decls ++ t2.decls).map fun d => (d.name, d)⟩,
        ?_, fun d hd => hres d hd, ?_⟩
      · simp [FunctionLibrary.make, make_tools, hflat, hbi]
      · intro d hd fc hfc
        have h := hres d hd
        rw [List.map_append] at h
        simp [FunctionLibrary.getFC, FunctionLibrary.getName, hfc, h]

/-- Witness for C7: two single-declaration tools both named "f" fail; tools
    named "f" and "g" succeed, and a function call named "g" resolves to
    the second tool's declaration. -/
theorem function_library_duplicates_witness :
    FunctionLibrary.make [⟨[.plain ⟨"f", "", Option.none⟩]⟩,
        ⟨[.plain ⟨"f", "d2", Option.none⟩]⟩] = .error .valueError
    ∧ ∃ lib, FunctionLibrary.make [⟨[.plain ⟨"f", "", Option.none⟩]⟩,
          ⟨[.plain ⟨"g", "", Option.none⟩]⟩] = .ok lib
        ∧ lib.getFC ⟨"g", []⟩ = .ok (.plain ⟨"g", "", Option.none⟩) := by
  constructor
  · exact (function_library_duplicates ⟨[.plain ⟨"f", "", Option.none⟩]⟩
      ⟨[.plain ⟨"f", "d2", Option.none⟩]⟩ (by decide) (by decide)).1
      ⟨"f", by decide, by decide⟩
  · obtain ⟨lib, hmk, -, hfc⟩ := (function_library_duplicates
      ⟨[.plain ⟨"f", "", Option.none⟩]⟩ ⟨[.plain ⟨"g", "", Option.none⟩]⟩
      (by decide) (by decide)).2 (by decide)
    exact ⟨lib, hmk, hfc (.plain ⟨"g", "", Option.none⟩) (by simp) ⟨"g", []⟩ rfl⟩

/-- C1: the AFC round trip.  With AFC enabled, a matching callable tool,
    and a model collaborator scripted to return one single-function-call
    response and then a plain-text response, send_message invokes the bound
    callable exactly once, appends exactly one role-"user" content holding
    the function-response part, issues exactly two model calls, and — once
    the pending pair is folded in by a history read — leaves the committed
    history ending in the final plain-text model content with the
    function-call and function-response contents included in order. -/
theorem afc_round_trip
    (h0 : List Content) (c mc tc : Content) (n t : String)
    (args : List (String × JVal)) (lib : FunctionLibrary) (pr : FnDeclProto)
    (fn : List (String × JVal) → JVal)
    (genConfig : List (String × JVal)) (safety : Option JVal) (toolConfig : Option JVal)
    (hrole : c.role = "user")
    (hlib : List.lookup n lib.index = some (.callable pr fn))
    (hmc : mc.parts = [.functionCall ⟨n, args⟩])
    (htc : tc.parts = [.text t])
    (hcc : candidateCount genConfig ≤ 1) :
    (send_message ⟨h0, Option.none, Option.none⟩ true (.content c) genConfig safety false
        (some lib) toolConfig
        ⟨[⟨[⟨mc, .stop⟩], false, Option.none⟩,
          ⟨[⟨tc, .stop⟩], false, Option.none⟩], [], []⟩).1
      = .ok ⟨[⟨tc, .stop⟩], false, Option.none⟩
    ∧ (send_message ⟨h0, Option.none, Option.none⟩ true (.content c) genConfig safety false
        (some lib) toolConfig
        ⟨[⟨[⟨mc, .stop⟩], false, Option.none⟩,
          ⟨[⟨tc, .stop⟩], false, Option.none⟩], [], []⟩).2.2.log.length = 2
    ∧ (send_message ⟨h0, Option.none, Option.none⟩ true (.content c) genConfig safety false
        (some lib) toolConfig
        ⟨[⟨[⟨mc, .stop⟩], false, Option.none⟩,
          ⟨[⟨tc, .stop⟩], false, Option.none⟩], [], []⟩).2.2.invoked = [⟨n, args⟩]
    ∧ (historyRead (send_message ⟨h0, Option.none, Option.none⟩ true (.content c)
        genConfig safety false (some lib) toolConfig
        ⟨[⟨[⟨mc, .stop⟩], false, Option.none⟩,
          ⟨[⟨tc, .stop⟩], false, Option.none⟩], [], []⟩).2.1).1
      = .ok (h0 ++ [c, mc,
          ⟨"user", [.functionResponse ⟨n, wrapResult (fn args)⟩]⟩,
          model_role_default tc]) := by
  rw [afc_run_eq h0 c mc tc n t args lib pr fn genConfig safety toolConfig
    hrole hlib hmc htc hcc]
  refine ⟨rfl, rfl, rfl, ?_⟩
  simp [historyRead, normalFinish]

/-- Witness for C1 at a concrete session, library, and script. -/
theorem afc_round_trip_witness :
    List.lookup "f" invokeWitnessLib.index
      = some (.callable ⟨"f", "", Option.none⟩ (fun _ => .int 7))
    ∧ (send_message ⟨[], Option.none, Option.none⟩ true
        (.content ⟨"user", [.text "hi"]⟩) [] Option.none false
        (some invokeWitnessLib) Option.none
        ⟨[⟨[⟨⟨"model", [.functionCall ⟨"f", [("x", .int 1)]⟩]⟩, .stop⟩], false, Option.none⟩,
          ⟨[⟨⟨"model", [.text "done"]⟩, .stop⟩], false, Option.none⟩], [], []⟩).2.2.invoked
      = [⟨"f", [("x", .int 1)]⟩]
    ∧ (historyRead (send_message ⟨[], Option.none, Option.none⟩ true
        (.content ⟨"user", [.text "hi"]⟩) [] Option.none false
        (some invokeWitnessLib) Option.none
        ⟨[⟨[⟨⟨"model", [.functionCall ⟨"f", [("x", .int 1)]⟩]⟩, .stop⟩], false, Option.none⟩,
          ⟨[⟨⟨"model", [.text "done"]⟩, .stop⟩], false, Option.none⟩], [], []⟩).2.1).1
      = .ok [⟨"user", [.text "hi"]⟩,
             ⟨"model", [.functionCall ⟨"f", [("x", .int 1)]⟩]⟩,
             ⟨"user", [.functionResponse ⟨"f", [("result", .int 7)]⟩]⟩,
             ⟨"model", [.text "done"]⟩] := by
  refine ⟨rfl, ?_, ?_⟩
  · exact (afc_round_trip [] ⟨"user", [.text "hi"]⟩
      ⟨"model", [.functionCall ⟨"f", [("x", .int 1)]⟩]⟩ ⟨"model", [.text "done"]⟩
      "f" "done" [("x", .int 1)] invokeWitnessLib ⟨"f", "", Option.none⟩
      (fun _ => .int 7) [] Option.none Option.none
      rfl rfl rfl rfl (by decide)).2.2.1
  · exact (afc_round_trip [] ⟨"user", [.text "hi"]⟩
      ⟨"model", [.functionCall ⟨"f", [("x", .int 1)]⟩]⟩ ⟨"model", [.text "done"]⟩
      "f" "done" [("x", .int 1)] invokeWitnessLib ⟨"f", "", Option.none⟩
      (fun _ => .int 7) [] Option.none Option.none
      rfl rfl rfl rfl (by decide)).2.2.2

/-- C2 counterexample: in a concrete AFC round trip both logged requests —
    round 0 AND the continuation round — carry the tool declarations; the
    continuation does not omit them. -/
theorem afc_continuation_keeps_tools_cex :
    (send_message ⟨[], Option.none, Option.none⟩ true
        (.content ⟨"user", [.text "hi"]⟩) [] Option.none false
        (some invokeWitnessLib) Option.none
        ⟨[⟨[⟨⟨"model", [.functionCall ⟨"f", [("x", .int 1)]⟩]⟩, .stop⟩], false, Option.none⟩,
          ⟨[⟨⟨"model", [.text "done"]⟩, .stop⟩], false, Option.none⟩],
         [], []⟩).2.2.log.map Request.tools
      = [some [[⟨"g", "", Option.none⟩, ⟨"f", "", Option.none⟩]],
         some [[⟨"g", "", Option.none⟩, ⟨"f", "", Option.none⟩]]]
    ∧ (some [[(⟨"g", "", Option.none⟩ : FnDeclProto), ⟨"f", "", Option.none⟩]] :
         Option (List (List FnDeclProto))) ≠ Option.none := by
  exact ⟨rfl, by decide⟩

/-- C2 (amended): for an AFC-enabled send_message over ANY model script —
    hence any number of AFC loop iterations, on any termination or error
    path — round 0's request carries the caller's generation and safety
    overrides, the tool declarations, and the caller's tool_config, and
    every request issued from inside the AFC loop after round 0 carries the
    same generation and safety overrides as round 0 and re-attaches the
    same tool declarations; only the per-call tool_config override is
    omitted on the continuation rounds. -/
theorem afc_continuation_requests
    (h0 : List Content) (c : Content) (lib : FunctionLibrary)
    (genConfig : List (String × JVal)) (safety : Option JVal) (toolConfig : Option JVal)
    (st : RunState)
    (hrole : c.role = "user")
    (hcc : candidateCount genConfig ≤ 1) :
    ∃ rest,
      (send_message ⟨h0, Option.none, Option.none⟩ true (.content c) genConfig safety false
          (some lib) toolConfig st).2.2.log
        = st.log ++
            (⟨h0 ++ [c], genConfig, safety, false, some lib.toProto, toolConfig⟩ :: rest)
      ∧ ∀ req ∈ rest,
          req.genConfig = genConfig ∧ req.safety = safety ∧ req.stream = false ∧
          req.tools = some lib.toProto ∧ req.toolConfig = Option.none := by
  have hgt : ¬ (candidateCount genConfig > 1) := by omega
  cases hscr : st.script with
  | nil =>
    refine ⟨[], ?_, by simp⟩
    simp [send_message, to_content, pyFalsy, hrole, historyRead, hgt, mockGenerate, hscr]
  | cons r srest =>
    cases hchk : check_response r false with
    | error e =>
      refine ⟨[], ?_, by simp⟩
      simp [send_message, to_content, pyFalsy, hrole, historyRead, hgt, mockGenerate,
        hscr, hchk]
    | ok u =>
      obtain ⟨rest2, heq2, hprops2⟩ := handle_afc_log lib genConfig safety false
        (srest.length + 1) r (h0 ++ [c])
        { script := srest,
          log := st.log ++ [⟨h0 ++ [c], genConfig, safety, false, some lib.toProto,
            toolConfig⟩],
          invoked := st.invoked }
      rcases hha : handle_afc (srest.length + 1) lib r (h0 ++ [c]) genConfig safety false
        { script := srest,
          log := st.log ++ [⟨h0 ++ [c], genConfig, safety, false, some lib.toProto,
            toolConfig⟩],
          invoked := st.invoked } with ⟨res, stf⟩
      rw [hha] at heq2
      simp only at heq2
      refine ⟨rest2, ?_, hprops2⟩
      cases res with
      | error e =>
        simp [send_message, to_content, pyFalsy, hrole, historyRead, hgt, mockGenerate,
          hscr, hchk, hha, heq2]
      | ok pr2 =>
        rcases pr2 with ⟨hist, resp⟩
        cases hsl : splitLast hist with
        | error e =>
          simp [send_message, to_content, pyFalsy, hrole, historyRead, hgt, mockGenerate,
            hscr, hchk, hha, hsl, heq2]
        | ok pr3 =>
          rcases pr3 with ⟨histInit, contentLast⟩
          simp [send_message, to_content, pyFalsy, hrole, historyRead, hgt, mockGenerate,
            hscr, hchk, hha, hsl, heq2]

/-- Witness for C2 at a three-response script driving two AFC continuation
    rounds: the log holds three requests, and both continuation requests
    satisfy the theorem's conclusion. -/
theorem afc_continuation_requests_witness :
    (⟨"user", [.text "hi"]⟩ : Content).role = "user"
    ∧ (send_message ⟨[], Option.none, Option.none⟩ true
        (.content ⟨"user", [.text "hi"]⟩) [] Option.none false
        (some invokeWitnessLib) Option.none
        ⟨[⟨[⟨⟨"model", [.functionCall ⟨"f", [("x", .int 1)]⟩]⟩, .stop⟩], false,
            Option.none⟩,
          ⟨[⟨⟨"model", [.functionCall ⟨"f", [("x", .int 2)]⟩]⟩, .stop⟩], false,
            Option.none⟩,
          ⟨[⟨⟨"model", [.text "done"]⟩, .stop⟩], false, Option.none⟩],
         [], []⟩).2.2.log.length = 3
    ∧ ∃ rest,
      (send_message ⟨[], Option.none, Option.none⟩ true
          (.content ⟨"user", [.text "hi"]⟩) [] Option.none false
          (some invokeWitnessLib) Option.none
          ⟨[⟨[⟨⟨"model", [.functionCall ⟨"f", [("x", .int 1)]⟩]⟩, .stop⟩], false,
              Option.none⟩,
            ⟨[⟨⟨"model", [.functionCall ⟨"f", [("x", .int 2)]⟩]⟩, .stop⟩], false,
              Option.none⟩,
            ⟨[⟨⟨"model", [.text "done"]⟩, .stop⟩], false, Option.none⟩],
           [], []⟩).2.2.log
        = ⟨[⟨"user", [.text "hi"]⟩], [], Option.none, false,
            some invokeWitnessLib.toProto, Option.none⟩ :: rest
      ∧ ∀ req ∈ rest,
          req.genConfig = [] ∧ req.safety = Option.none ∧ req.stream = false ∧
          req.tools = some invokeWitnessLib.toProto ∧ req.toolConfig = Option.none := by
  refine ⟨rfl, by decide, ?_⟩
  obtain ⟨rest, heq, hprops⟩ := afc_continuation_requests [] ⟨"user", [.text "hi"]⟩
    invokeWitnessLib [] Option.none Option.none
    ⟨[⟨[⟨⟨"model", [.functionCall ⟨"f", [("x", .int 1)]⟩]⟩, .stop⟩], false,
        Option.none⟩,
      ⟨[⟨⟨"model", [.functionCall ⟨"f", [("x", .int 2)]⟩]⟩, .stop⟩], false,
        Option.none⟩,
      ⟨[⟨⟨"model", [.text "done"]⟩, .stop⟩], false, Option.none⟩],
     [], []⟩ rfl (by decide)
  exact ⟨rest, by simpa using heq, hprops⟩

end GenAI
